import Mathlib

/-!
The `service add` command of sail: the deployment request compiler and the
create-or-redeploy protocol

A shallow embedding of `service/add.go`.

* Go strings are Lean `String`s; `strings.Split(s, ":")` is `Split`.
* Go maps with string keys are association lists with unique keys (`GoMap`); reading a
  missing key gives the zero value (`GoMap.getD`).
* `os.Exit(1)`, `internal.Check(err)` with a non-nil error, and an early `return` after a
  diagnostic are the `Except.error` outcome of a stage.
* The collaborators of the orchestrator (`internal.Stream`, `ioutil.ReadAll`,
  `internal.DisplayStream`, `internal.DecodeError`, `shlex.Split`, `json.MarshalIndent`)
  are inputs (`World`); the calls `serviceAdd` makes are recorded as a list of `Call`s.
-/

namespace Sail

/-! ## Strings -/

/-- Go `strings.Split(s, ":")`: the substrings between the `':'` separators. -/
def Split (s : String) : List String :=
  (s.data.splitOn ':').map String.mk

/-- The value of a run of decimal digits, most significant first. -/
def digitsValue (ds : List Char) : Nat :=
  ds.foldl (fun acc c => 10 * acc + (c.toNat - '0'.toNat)) 0

/-- Go `strconv.Atoi` with a 64-bit `int`: an optional sign, then one or more decimal
digits, the value within the range of `int`; `none` is a non-nil error. -/
def Atoi (s : String) : Option Int :=
  let neg : Bool := match s.data with
    | '-' :: _ => true
    | _ => false
  let ds : List Char := match s.data with
    | '-' :: r => r
    | '+' :: r => r
    | r => r
  if ds = [] then none
  else if ds.all Char.isDigit then
    if neg then
      if digitsValue ds ≤ 2 ^ 63 then some (-(digitsValue ds : Int)) else none
    else
      if digitsValue ds < 2 ^ 63 then some (digitsValue ds : Int) else none
  else none

/-- Go `parsePort` (add.go:314). -/
def parsePort (raw : String) : Except String Int :=
  match Atoi raw with
  | none => .error ("Invalid port number '" ++ raw ++ "': should be between 1 and 65535")
  | some port =>
    if port < 1 ∨ port > 65535 then
      .error ("Invalid port number '" ++ raw ++ "': should be between 1 and 65535")
    else .ok port

/-! ## Maps -/

/-- A Go `map[string]β`: an association list, at most one entry per key. -/
abbrev GoMap (β : Type) := List (String × β)

namespace GoMap

variable {β : Type}

/-- The keys of the map. -/
def keys (m : GoMap β) : List String := m.map Prod.fst

/-- Go `v, ok := m[k]`. -/
def get? : GoMap β → String → Option β
  | [], _ => none
  | (k', v) :: rest, k => if k' = k then some v else get? rest k

/-- Go `m[k]` with zero value `z` for a missing key. -/
def getD (m : GoMap β) (k : String) (z : β) : β := (m.get? k).getD z

/-- Go `m[k] = v`. -/
def set : GoMap β → String → β → GoMap β
  | [], k, v => [(k, v)]
  | (k', v') :: rest, k, v => if k' = k then (k, v) :: rest else (k', v') :: set rest k v

end GoMap

/-! ## The data model (add.go:87-118) -/

/-- Go `PortConfig` (add.go:88); `Network = ""` is the omitted network. -/
structure PortConfig where
  PublishedPort : Int
  WhitelistedCidrs : List String
  Network : String
deriving DecidableEq, Repr

/-- Go `VolumeConfig` (add.go:95). -/
structure VolumeConfig where
  Size : String
deriving DecidableEq, Repr

/-! ## The port publish rule parser (add.go:322) -/

/-- One iteration of the loop of `parsePublishedPort` (add.go:326-357). -/
def publishStep (v : GoMap (List PortConfig)) (pub : String) :
    Except String (GoMap (List PortConfig)) :=
  match Split pub with
  | [s0] =>
    match parsePort s0 with
    | .error e => .error e
    | .ok port => .ok (v.set (s0 ++ "/tcp") [⟨port, [], ""⟩])
  | [s0, s1] =>
    match Atoi s0 with
    | none =>
      match parsePort s1 with
      | .error e => .error e
      | .ok port => .ok (v.set (s1 ++ "/tcp") (v.getD (s1 ++ "/tcp") [] ++ [⟨port, [], s0⟩]))
    | some _ =>
      match parsePort s0 with
      | .error e => .error e
      | .ok port => .ok (v.set (s1 ++ "/tcp") (v.getD (s1 ++ "/tcp") [] ++ [⟨port, [], ""⟩]))
  | [s0, s1, s2] =>
    match parsePort (if s1 = "" then s2 else s1) with
    | .error e => .error e
    | .ok port => .ok (v.set (s2 ++ "/tcp") (v.getD (s2 ++ "/tcp") [] ++ [⟨port, [], s0⟩]))
  | _ => .error ("Error: Invalid port expose rule '" ++ pub ++ "'")

/-- The loop of `parsePublishedPort` from a map `v`. -/
def publishLoop : GoMap (List PortConfig) → List String → Except String (GoMap (List PortConfig))
  | v, [] => .ok v
  | v, pub :: rest =>
    match publishStep v pub with
    | .error e => .error e
    | .ok v' => publishLoop v' rest

/-- Go `parsePublishedPort` (add.go:322). -/
def parsePublishedPort (args : List String) : Except String (GoMap (List PortConfig)) :=
  publishLoop [] args

/-- A key of the form `<digits>/tcp`: a non-empty run of decimal digits, then `/tcp`. -/
def isDigitsTcp (k : String) : Bool :=
  let ds := k.data.take (k.data.length - 4)
  decide (k.data.drop (k.data.length - 4) = ['/', 't', 'c', 'p']) && !ds.isEmpty
    && ds.all Char.isDigit

/-! ## The whitelist parser (add.go:363) -/

/-- The update `pc.WhitelistedCidrs = append(pc.WhitelistedCidrs, addr)` of add.go:372, 379. -/
def appendCidr (addr : String) (pc : PortConfig) : PortConfig :=
  { pc with WhitelistedCidrs := pc.WhitelistedCidrs ++ [addr] }

/-- One iteration of the loop of `parseWhitelistedCidrs` (add.go:366-384). -/
def whitelistStep (containerPorts : GoMap (List PortConfig)) (network : String) :
    Except String (GoMap (List PortConfig)) :=
  match Split network with
  | [addr] =>
    .ok (containerPorts.map fun (port, pcs) => (port, pcs.map (appendCidr addr)))
  | [addr, p] =>
    .ok (containerPorts.map fun (port, pcs) =>
      if port = p ++ "/tcp" then (port, pcs.map (appendCidr addr)) else (port, pcs))
  | _ => .error "Invalid allowed network, should be 1.2.3.4[/24][:80]"

/-- Go `parseWhitelistedCidrs` (add.go:363). -/
def parseWhitelistedCidrs :
    List String → GoMap (List PortConfig) → Except String (GoMap (List PortConfig))
  | [], containerPorts => .ok containerPorts
  | network :: rest, containerPorts =>
    match whitelistStep containerPorts network with
    | .error e => .error e
    | .ok containerPorts' => parseWhitelistedCidrs rest containerPorts'

/-! ## The request document and the flags -/

/-- Go `Add` (add.go:100). `ContainerEnvironment = none` is the nil slice. -/
structure Add where
  Service : String
  Volumes : GoMap VolumeConfig
  Repository : String
  ContainerUser : String
  RestartPolicy : String
  ContainerCommand : List String
  ContainerNetwork : GoMap (GoMap (List String))
  ContainerEntrypoint : List String
  ContainerNumber : Int
  RepositoryTag : String
  Links : GoMap String
  Application : String
  ContainerWorkdir : String
  ContainerEnvironment : Option (List String)
  ContainerModel : String
  ContainerPorts : GoMap (List PortConfig)
  Pool : String
deriving DecidableEq, Repr

/-- The package-level variables `serviceAdd` reads (add.go:17-27), with `redeployLink`
of the redeploy command (read at add.go:203) and `internal.Format` (add.go:286). -/
structure Flags where
  cmdAddLink : List String
  cmdAddNetworkAllow : List String
  addPublish : List String
  cmdAddGateway : List String
  cmdAddVolume : List String
  addBatch : Bool
  cmdAddRedeploy : Bool
  cmdAddNetwork : List String
  cmdAddCommand : String
  cmdAddEntrypoint : String
  redeployLink : List String
  Format : String

/-! ## The stages of `serviceAdd` (add.go:186-244) -/

/-- One iteration of the volume loop (add.go:190-200). -/
def volumeStep (volumes : GoMap VolumeConfig) (vol : String) : Except String (GoMap VolumeConfig) :=
  match Split vol with
  | [t0, t1] => .ok (volumes.set t0 ⟨t1⟩)
  | [t0] => .ok (volumes.set t0 ⟨"10"⟩)
  | _ => .error ("Error: Volume parameter '" ++ vol ++ "' not formated correctly")

/-- The volume loop from a map `volumes`. -/
def volumeLoop : GoMap VolumeConfig → List String → Except String (GoMap VolumeConfig)
  | volumes, [] => .ok volumes
  | volumes, vol :: rest =>
    match volumeStep volumes vol with
    | .error e => .error e
    | .ok volumes' => volumeLoop volumes' rest

/-- The volume stage of `serviceAdd` (add.go:186-200): `volumes` is `args.Volumes` on entry. -/
def parseVolumes (volumes : GoMap VolumeConfig) (cmdAddVolume : List String) :
    Except String (GoMap VolumeConfig) :=
  volumeLoop (if cmdAddVolume.length > 0 then [] else volumes) cmdAddVolume

/-- One iteration of the link loop (add.go:207-214). -/
def linkStep (links : GoMap String) (link : String) : GoMap String :=
  match Split link with
  | [] => links
  | [t0] => links.set t0 t0
  | t0 :: t1 :: _ => links.set t0 t1

/-- The link stage of `serviceAdd` (add.go:202-214). -/
def parseLinks (links : GoMap String) (redeployLink cmdAddLink : List String) : GoMap String :=
  cmdAddLink.foldl linkStep (if redeployLink.length > 0 then [] else links)

/-- The network loop of `serviceAdd` (add.go:217-219). -/
def parseNetworks (cn : GoMap (GoMap (List String))) (cmdAddNetwork : List String) :
    GoMap (GoMap (List String)) :=
  cmdAddNetwork.foldl (fun cn network => cn.set network []) cn

/-- One iteration of the gateway loop (add.go:221-238). -/
def gatewayStep (cn : GoMap (GoMap (List String))) (gat : String) :
    Except String (GoMap (GoMap (List String))) :=
  match Split gat with
  | [t0, t1] =>
    let cn1 := if (cn.get? t0).isNone then cn.set t0 [] else cn
    let cn2 := if (cn1.get? t1).isNone then cn1.set t1 [] else cn1
    .ok (cn2.set t0
      ((cn2.getD t0 []).set "gateway_to" ((cn2.getD t0 []).getD "gateway_to" [] ++ [t1])))
  | _ => .error "Invalid gateway parameter, should be \"input:output\"."

/-- The gateway stage of `serviceAdd` (add.go:221-238). -/
def parseGateways :
    List String → GoMap (GoMap (List String)) → Except String (GoMap (GoMap (List String)))
  | [], cn => .ok cn
  | gat :: rest, cn =>
    match gatewayStep cn gat with
    | .error e => .error e
    | .ok cn' => parseGateways rest cn'

/-! ## The orchestrator (add.go:246-312) -/

/-- Modelled from the spec: the `Redeploy` document is declared in redeploy.go, which is
not among the sources; its fields are the ones the composite literal of `ensureMode`
(add.go:294-310) names, the "reduced view" of the spec's data model. -/
structure Redeploy where
  Service : String
  Volumes : GoMap VolumeConfig
  Repository : String
  ContainerUser : String
  RestartPolicy : String
  ContainerCommand : List String
  ContainerNetwork : GoMap (GoMap (List String))
  ContainerEntrypoint : List String
  RepositoryTag : String
  Links : GoMap String
  Application : String
  ContainerWorkdir : String
  ContainerEnvironment : Option (List String)
  ContainerModel : String
  ContainerPorts : GoMap (List PortConfig)
deriving DecidableEq, Repr

/-- The structured error `internal.DecodeError` returns; only `Code` is read (add.go:277). -/
structure StreamError where
  Code : Int
deriving DecidableEq, Repr

/-- The results of the collaborators, taken as inputs. -/
structure World where
  /-- Result of `shlex.Split`. -/
  shlexSplit : String → Except String (List String)
  /-- Result of `json.MarshalIndent(args, " ", " ")`. -/
  MarshalIndent : Add → Except String String
  /-- The `buffer` returned by `internal.Stream`. -/
  streamBuffer : String
  /-- The `code` returned by `internal.Stream`. -/
  streamCode : Int
  /-- The `err` returned by `internal.Stream`; `none` is nil. -/
  streamErr : Option String
  /-- Result of `ioutil.ReadAll(buffer)`. -/
  ReadAll : Except String String
  /-- The `line` returned by `internal.DisplayStream(buffer)`. -/
  displayLine : String
  /-- The `err` returned by `internal.DisplayStream(buffer)`; `none` is nil. -/
  displayErr : Option String
  /-- Result of `internal.DecodeError`; `none` is nil. -/
  DecodeError : String → Option StreamError

/-- A call `serviceAdd` makes to a collaborator that acts on the outside world.
`doServiceRedeploy` carries the value `ensureMode` gives the variable `redeployBatch`. -/
inductive Call where
  | Stream (method path body : String)
  | ReadAll
  | FormatOutputError (body : String)
  | DisplayStream
  | doServiceRedeploy (redeployBatch : Bool) (redeployBody : Redeploy) (app service : String)
  | serviceStart (app service : String) (batch : Bool)
deriving DecidableEq, Repr

/-- Go `ensureMode` (add.go:292): the call it makes. -/
def ensureMode (addBatch : Bool) (args : Add) : Call :=
  .doServiceRedeploy addBatch
    { Service := args.Service
      Volumes := args.Volumes
      Repository := args.Repository
      ContainerUser := args.ContainerUser
      RestartPolicy := args.RestartPolicy
      ContainerCommand := args.ContainerCommand
      ContainerNetwork := args.ContainerNetwork
      ContainerEntrypoint := args.ContainerEntrypoint
      RepositoryTag := args.RepositoryTag
      Links := args.Links
      Application := args.Application
      ContainerWorkdir := args.ContainerWorkdir
      ContainerEnvironment := args.ContainerEnvironment
      ContainerModel := args.ContainerModel
      ContainerPorts := args.ContainerPorts }
    args.Application args.Service

/-- The variables `ensureMode` can assign: its parameter `args` and the package variable
`redeployBatch`. -/
structure EnsureVars where
  args : Add
  redeployBatch : Bool
deriving DecidableEq, Repr

/-- Go `ensureMode` (add.go:292) on the variables it can assign: the one assignment is
`redeployBatch = addBatch` (add.go:293), then the call of `doServiceRedeploy`. -/
def ensureModeRun (addBatch : Bool) (vars : EnsureVars) : EnsureVars × Call :=
  ({ vars with redeployBatch := addBatch }, ensureMode addBatch vars.args)

/-- The compile stages of `serviceAdd` (add.go:160-244): the document that is marshalled. -/
def serviceAddCompile (w : World) (f : Flags) (args : Add) : Except String Add :=
  let args := { args with ContainerEnvironment := some (args.ContainerEnvironment.getD []) }
  match (if f.cmdAddCommand ≠ "" then w.shlexSplit f.cmdAddCommand
         else .ok args.ContainerCommand) with
  | .error e => .error ("Fatal, cannot split command " ++ e)
  | .ok command =>
  let args := { args with ContainerCommand := command }
  match (if f.cmdAddEntrypoint ≠ "" then w.shlexSplit f.cmdAddEntrypoint
         else .ok args.ContainerEntrypoint) with
  | .error e => .error ("Fatal, cannot split command " ++ e)
  | .ok entrypoint =>
  let args := { args with ContainerEntrypoint := entrypoint }
  match parseVolumes args.Volumes f.cmdAddVolume with
  | .error e => .error e
  | .ok volumes =>
  let args := { args with Volumes := volumes }
  let args := { args with Links := parseLinks args.Links f.redeployLink f.cmdAddLink }
  let args := { args with ContainerNetwork := parseNetworks args.ContainerNetwork f.cmdAddNetwork }
  match parseGateways f.cmdAddGateway args.ContainerNetwork with
  | .error e => .error e
  | .ok cn =>
  let args := { args with ContainerNetwork := cn }
  match parsePublishedPort f.addPublish with
  | .error e => .error e
  | .ok ports =>
  match parseWhitelistedCidrs f.cmdAddNetworkAllow ports with
  | .error e => .error e
  | .ok ports => .ok { args with ContainerPorts := ports }

/-- The create-or-redeploy protocol of `serviceAdd` (add.go:246-290) on the compiled
document: the calls made, in order. -/
def serviceAddSubmit (w : World) (f : Flags) (args : Add) : List Call :=
  match w.MarshalIndent args with
  | .error _ => []
  | .ok body =>
    .Stream "POST" ("/applications/" ++ args.Application ++ "/services/" ++ args.Service) body ::
    match w.streamErr with
    | some _ => []
    | none =>
      if w.streamCode = 409 ∧ f.cmdAddRedeploy = true then [ensureMode f.addBatch args]
      else if w.streamCode ≥ 400 then
        .ReadAll ::
        match w.ReadAll with
        | .error _ => []
        | .ok body => [.FormatOutputError body]
      else
        .DisplayStream ::
        match w.displayErr with
        | some _ =>
          match w.DecodeError w.displayLine with
          | some e =>
            if e.Code = 409 ∧ f.cmdAddRedeploy = true then [ensureMode f.addBatch args]
            else [.FormatOutputError w.displayLine]
          | none => [.FormatOutputError w.displayLine]
        | none => [.serviceStart args.Application args.Service f.addBatch]

/-- Go `serviceAdd` (add.go:160): the calls it makes to the collaborators, in order. -/
def serviceAdd (w : World) (f : Flags) (args : Add) : List Call :=
  match serviceAddCompile w f args with
  | .error _ => []
  | .ok args => serviceAddSubmit w f args

/-- The number of calls of the redeploy path in a run. -/
def redeployCalls (calls : List Call) : Nat :=
  calls.countP fun c => match c with
    | .doServiceRedeploy _ _ _ _ => true
    | _ => false

/-- The number of calls of the start sequence in a run. -/
def startCalls (calls : List Call) : Nat :=
  calls.countP fun c => match c with
    | .serviceStart _ _ _ => true
    | _ => false

/-! ## Concrete inputs -/

/-- The flags of `sail service add` with no option given (the defaults of add.go:66-83). -/
def defaultFlags : Flags :=
  { cmdAddLink := [], cmdAddNetworkAllow := [], addPublish := [], cmdAddGateway := [],
    cmdAddVolume := [], addBatch := false, cmdAddRedeploy := false, cmdAddNetwork := [],
    cmdAddCommand := "", cmdAddEntrypoint := "", redeployLink := [], Format := "pretty" }

/-- The document `cmdAdd` (add.go:120) passes for `sail service add app/redis`. -/
def defaultAdd : Add :=
  { Service := "redis", Volumes := [], Repository := "redis", ContainerUser := "",
    RestartPolicy := "no", ContainerCommand := [], ContainerNetwork := [],
    ContainerEntrypoint := [], ContainerNumber := 1, RepositoryTag := "", Links := [],
    Application := "app", ContainerWorkdir := "", ContainerEnvironment := none,
    ContainerModel := "x1", ContainerPorts := [], Pool := "" }

/-- Collaborators that all succeed: the create call answers 200 and the stream ends
without error. -/
def okWorld : World :=
  { shlexSplit := fun s => .ok [s], MarshalIndent := fun _ => .ok "{}", streamBuffer := "",
    streamCode := 200, streamErr := none, ReadAll := .ok "", displayLine := "",
    displayErr := none, DecodeError := fun _ => none }

/-! ## Facts about `Split` -/

theorem splitOn_colon_single (s : List Char) (h : ':' ∉ s) : s.splitOn ':' = [s] := by
  refine List.splitOnP_eq_single _ _ ?_
  intro x hx hp
  have : x = ':' := by simpa using hp
  exact h (this ▸ hx)

theorem splitOn_colon_cons (a rest : List Char) (h : ':' ∉ a) :
    (a ++ ':' :: rest).splitOn ':' = a :: rest.splitOn ':' := by
  refine List.splitOnP_first _ _ ?_ ':' (by simp) rest
  intro x hx hp
  have : x = ':' := by simpa using hp
  exact h (this ▸ hx)

theorem splitOn_colon_length (s : List Char) : (s.splitOn ':').length = s.count ':' + 1 := by
  induction s with
  | nil => rfl
  | cons c cs ih =>
    have ih' : (List.splitOnP (fun x => x == ':') cs).length = cs.count ':' + 1 := ih
    by_cases hc : c = ':'
    · subst hc
      simp [List.splitOn, ih']
    · have hne : (c == ':') = false := by simpa using hc
      have hne' : ¬ (':' = c) := fun h => hc h.symm
      simp [List.splitOn, hne, ih', List.count_cons, hne']

theorem Split_one (a : String) (ha : ':' ∉ a.data) : Split a = [a] := by
  simp [Split, splitOn_colon_single a.data ha]

theorem Split_two (a b : String) (ha : ':' ∉ a.data) (hb : ':' ∉ b.data) :
    Split (a ++ ":" ++ b) = [a, b] := by
  have h : (a ++ ":" ++ b).data = a.data ++ ':' :: b.data := by simp
  simp [Split, h, splitOn_colon_cons _ _ ha, splitOn_colon_single _ hb]

theorem Split_three (a b c : String) (ha : ':' ∉ a.data) (hb : ':' ∉ b.data)
    (hc : ':' ∉ c.data) : Split (a ++ ":" ++ b ++ ":" ++ c) = [a, b, c] := by
  have h : (a ++ ":" ++ b ++ ":" ++ c).data = a.data ++ ':' :: (b.data ++ ':' :: c.data) := by
    simp
  simp [Split, h, splitOn_colon_cons _ _ ha, splitOn_colon_cons _ _ hb,
    splitOn_colon_single _ hc]

theorem Split_length (s : String) : (Split s).length = s.data.count ':' + 1 := by
  simp [Split, splitOn_colon_length]

/-! ## Facts about `Atoi` and `parsePort` -/

theorem not_colon_of_all_isDigit (ds : List Char) (h : ds.all Char.isDigit = true) :
    ':' ∉ ds := by
  intro hmem
  have := List.all_eq_true.mp h ':' hmem
  exact absurd this (by decide)

theorem Atoi_no_colon (s : String) (n : Int) (h : Atoi s = some n) : ':' ∉ s.data := by
  unfold Atoi at h
  simp only at h
  split_ifs at h with h1 h2 h3 h4
  all_goals
    have hd := not_colon_of_all_isDigit _ h2
    intro hmem
    apply hd
    revert hmem
    split <;> simp_all

theorem parsePort_no_colon (s : String) (p : Int) (h : parsePort s = .ok p) : ':' ∉ s.data := by
  unfold parsePort at h
  cases ha : Atoi s with
  | none => simp [ha] at h
  | some n => exact Atoi_no_colon s n ha

theorem parsePort_Atoi (s : String) (p : Int) (h : parsePort s = .ok p) : Atoi s = some p := by
  unfold parsePort at h
  cases ha : Atoi s with
  | none => simp [ha] at h
  | some n =>
    simp only [ha] at h
    split_ifs at h
    simpa using h

theorem parsePort_range (s : String) (p : Int) (h : parsePort s = .ok p) :
    1 ≤ p ∧ p ≤ 65535 := by
  unfold parsePort at h
  cases ha : Atoi s with
  | none => simp [ha] at h
  | some n =>
    simp only [ha] at h
    split_ifs at h with hr
    have : n = p := by simpa using h
    subst this
    omega

/-! ## Facts about `GoMap` -/

namespace GoMap

variable {β : Type}

theorem get?_set_self (m : GoMap β) (k : String) (v : β) : (m.set k v).get? k = some v := by
  induction m with
  | nil => simp [set, get?]
  | cons e rest ih =>
    obtain ⟨k', v'⟩ := e
    by_cases h : k' = k <;> simp [set, get?, h, ih]

theorem get?_set_other (m : GoMap β) (k k' : String) (v : β) (h : k ≠ k') :
    (m.set k v).get? k' = m.get? k' := by
  induction m with
  | nil => simp [set, get?, h]
  | cons e rest ih =>
    obtain ⟨k0, v0⟩ := e
    by_cases h0 : k0 = k
    · subst h0
      simp [set, get?, h]
    · simp [set, get?, h0, ih]

theorem mem_keys_iff_get? (m : GoMap β) (k : String) : k ∈ m.keys ↔ (m.get? k).isSome = true := by
  induction m with
  | nil => simp [keys, get?]
  | cons e rest ih =>
    obtain ⟨k0, v0⟩ := e
    by_cases h0 : k0 = k
    · simp [keys, get?, h0]
    · have h1 : ¬ k = k0 := fun h => h0 h.symm
      have ih' : k ∈ List.map Prod.fst rest ↔ (get? rest k).isSome = true := ih
      simp only [keys, List.map_cons, List.mem_cons, h1, false_or, get?, h0, if_false]
      exact ih'

theorem mem_keys_set_self (m : GoMap β) (k : String) (v : β) : k ∈ (m.set k v).keys := by
  rw [mem_keys_iff_get?, get?_set_self]; rfl

theorem mem_keys_set_of_mem (m : GoMap β) (k k' : String) (v : β) (h : k' ∈ m.keys) :
    k' ∈ (m.set k v).keys := by
  by_cases hk : k = k'
  · subst hk; exact mem_keys_set_self m k v
  · rw [mem_keys_iff_get?, get?_set_other m k k' v hk, ← mem_keys_iff_get?]; exact h

end GoMap

/-! ## The claims about the port publish rule parser -/

/-- C1 (fails on the code): the container port of a `publishedPort:containerPort` rule and
of a `network:publishedPort:containerPort` rule is never passed to `parsePort`. The rules
`80:abc`, `80:70000` and `public:8080:abc` are accepted, although `abc` and `70000` are
rejected by `parsePort`, and they give the keys `abc/tcp` and `70000/tcp`. -/
theorem parsePublishedPort_container_port_unchecked :
    parsePublishedPort ["80:abc"] = .ok [("abc/tcp", [⟨80, [], ""⟩])] ∧
    parsePublishedPort ["80:70000"] = .ok [("70000/tcp", [⟨80, [], ""⟩])] ∧
    parsePublishedPort ["public:8080:abc"] = .ok [("abc/tcp", [⟨8080, [], "public"⟩])] ∧
    (parsePort "abc").toOption = none ∧ (parsePort "70000").toOption = none :=
  ⟨rfl, rfl, rfl, rfl, rfl⟩

/-- C2 (fails on the code): a bare `N` rule assigns a fresh one-element sequence to its key
(add.go:330) where the other shapes append. After `public:80`, the rule `80` leaves only
its own PortConfig under `80/tcp`, while the rule `80:80` in its place keeps both. -/
theorem parsePublishedPort_bare_rule_replaces :
    parsePublishedPort ["public:80", "80"] = .ok [("80/tcp", [⟨80, [], ""⟩])] ∧
    parsePublishedPort ["public:80", "80:80"] =
      .ok [("80/tcp", [⟨80, [], "public"⟩, ⟨80, [], ""⟩])] :=
  ⟨rfl, rfl⟩

/-- C3: a single valid publish rule gives a map with the one key `<containerPort>/tcp`
holding one PortConfig with an empty whitelist: `N` gives published `N`, no network;
`A:B` with `A` a port gives published `A` on container `B`, no network; `A:B` with `A` not
an integer gives network `A`, published `B` on container `B`; `A::C` gives network `A`,
published `C` on container `C`; `A:B:C` gives network `A`, published `B` on container `C`. -/
theorem parsePublishedPort_single_rule :
    (∀ (n : String) (p : Int), parsePort n = .ok p →
      parsePublishedPort [n] = .ok [(n ++ "/tcp", [⟨p, [], ""⟩])]) ∧
    (∀ (a b : String) (pa pb : Int), parsePort a = .ok pa → parsePort b = .ok pb →
      parsePublishedPort [a ++ ":" ++ b] = .ok [(b ++ "/tcp", [⟨pa, [], ""⟩])]) ∧
    (∀ (a b : String) (pb : Int), ':' ∉ a.data → Atoi a = none → parsePort b = .ok pb →
      parsePublishedPort [a ++ ":" ++ b] = .ok [(b ++ "/tcp", [⟨pb, [], a⟩])]) ∧
    (∀ (a c : String) (pc : Int), ':' ∉ a.data → parsePort c = .ok pc →
      parsePublishedPort [a ++ "::" ++ c] = .ok [(c ++ "/tcp", [⟨pc, [], a⟩])]) ∧
    (∀ (a b c : String) (pb pc : Int), ':' ∉ a.data → parsePort b = .ok pb →
      parsePort c = .ok pc →
      parsePublishedPort [a ++ ":" ++ b ++ ":" ++ c] = .ok [(c ++ "/tcp", [⟨pb, [], a⟩])]) := by
  refine ⟨?_, ?_, ?_, ?_, ?_⟩
  · intro n p hn
    simp [parsePublishedPort, publishLoop, publishStep, Split_one n (parsePort_no_colon n p hn),
      hn, GoMap.set]
  · intro a b pa pb ha hb
    simp [parsePublishedPort, publishLoop, publishStep,
      Split_two a b (parsePort_no_colon a pa ha) (parsePort_no_colon b pb hb),
      parsePort_Atoi a pa ha, ha, GoMap.set, GoMap.getD, GoMap.get?]
  · intro a b pb ha hna hb
    simp [parsePublishedPort, publishLoop, publishStep,
      Split_two a b ha (parsePort_no_colon b pb hb), hna, hb, GoMap.set, GoMap.getD, GoMap.get?]
  · intro a c pc ha hc
    have e : a ++ "::" ++ c = a ++ ":" ++ "" ++ ":" ++ c := by
      apply String.ext; simp
    have hs : Split (a ++ "::" ++ c) = [a, "", c] := by
      rw [e]; exact Split_three a "" c ha (by simp) (parsePort_no_colon c pc hc)
    simp [parsePublishedPort, publishLoop, publishStep, hs, hc, GoMap.set, GoMap.getD,
      GoMap.get?]
  · intro a b c pb pc ha hb hc
    have hne : b ≠ "" := by
      intro h
      subst h
      have h2 := parsePort_Atoi "" pb hb
      have h3 : Atoi "" = none := rfl
      rw [h3] at h2
      cases h2
    simp [parsePublishedPort, publishLoop, publishStep,
      Split_three a b c ha (parsePort_no_colon b pb hb) (parsePort_no_colon c pc hc), hne, hb,
      GoMap.set, GoMap.getD, GoMap.get?]

/-- Witness of C3 on `80`, `8080:80`, `public:80`, `public::80` and `public:8080:80`. -/
theorem parsePublishedPort_single_rule_witness :
    parsePublishedPort ["80"] = .ok [("80/tcp", [⟨80, [], ""⟩])] ∧
    parsePublishedPort ["8080:80"] = .ok [("80/tcp", [⟨8080, [], ""⟩])] ∧
    parsePublishedPort ["public:80"] = .ok [("80/tcp", [⟨80, [], "public"⟩])] ∧
    parsePublishedPort ["public::80"] = .ok [("80/tcp", [⟨80, [], "public"⟩])] ∧
    parsePublishedPort ["public:8080:80"] = .ok [("80/tcp", [⟨8080, [], "public"⟩])] :=
  ⟨parsePublishedPort_single_rule.1 "80" 80 rfl,
   parsePublishedPort_single_rule.2.1 "8080" "80" 8080 80 rfl rfl,
   parsePublishedPort_single_rule.2.2.1 "public" "80" 80 (by decide) rfl rfl,
   parsePublishedPort_single_rule.2.2.2.1 "public" "80" 80 (by decide) rfl,
   parsePublishedPort_single_rule.2.2.2.2 "public" "8080" "80" 8080 80 (by decide) rfl rfl⟩

/-- C7 (fails on the code): the key is the raw container-port token followed by `/tcp`,
and that token is not checked in the `publishedPort:containerPort` shape, nor rebuilt from
the parsed number: `80:abc` gives the key `abc/tcp`, `80:` the key `/tcp`, and `+80` the
key `+80/tcp`, none of them of the form `<digits>/tcp`. -/
theorem parsePublishedPort_key_not_digits :
    (parsePublishedPort ["80:abc"]).toOption.map GoMap.keys = some ["abc/tcp"] ∧
    isDigitsTcp "abc/tcp" = false ∧
    (parsePublishedPort ["80:"]).toOption.map GoMap.keys = some ["/tcp"] ∧
    isDigitsTcp "/tcp" = false ∧
    (parsePublishedPort ["+80"]).toOption.map GoMap.keys = some ["+80/tcp"] ∧
    isDigitsTcp "+80/tcp" = false ∧
    isDigitsTcp "80/tcp" = true :=
  ⟨rfl, rfl, rfl, rfl, rfl, rfl, rfl⟩

/-! ## The claims about the whitelist parser -/

namespace GoMap

variable {β : Type}

theorem keys_mapValues (m : GoMap β) (f : String → β → β) :
    keys (m.map fun e => (e.1, f e.1 e.2)) = keys m := by
  simp [keys, Function.comp_def]

theorem get?_mapValues (m : GoMap β) (f : String → β → β) (k : String) :
    get? (m.map fun e => (e.1, f e.1 e.2)) k = (get? m k).map (f k) := by
  induction m with
  | nil => simp [get?]
  | cons e rest ih =>
    obtain ⟨k0, v0⟩ := e
    by_cases h0 : k0 = k
    · subst h0; simp [get?]
    · have ih' : get? (List.map (fun e => (e.1, f e.1 e.2)) rest) k = (get? rest k).map (f k) := ih
      simp [get?, h0, ih']

theorem mapValues_eq_self (m : GoMap β) (f : String → β → β)
    (h : ∀ k ∈ keys m, ∀ v, f k v = v) :
    (m.map fun e => (e.1, f e.1 e.2)) = m := by
  induction m with
  | nil => rfl
  | cons e rest ih =>
    obtain ⟨k0, v0⟩ := e
    have h1 : f k0 v0 = v0 := h k0 (by simp [keys]) v0
    have ih' := ih (fun k hk v => h k (by simp only [keys, List.map_cons, List.mem_cons]; exact Or.inr hk) v)
    simp only [List.map_cons, h1]
    exact congrArg _ ih'

end GoMap

theorem whitelistStep_no_port (m : GoMap (List PortConfig)) (addr : String)
    (h : ':' ∉ addr.data) :
    whitelistStep m addr = .ok (m.map fun e => (e.1, (fun _ pcs => pcs.map (appendCidr addr)) e.1 e.2)) := by
  simp [whitelistStep, Split_one addr h]

theorem whitelistStep_port (m : GoMap (List PortConfig)) (addr p : String)
    (ha : ':' ∉ addr.data) (hp : ':' ∉ p.data) :
    whitelistStep m (addr ++ ":" ++ p) =
      .ok (m.map fun e => (e.1, (fun port pcs =>
        if port = p ++ "/tcp" then pcs.map (appendCidr addr) else pcs) e.1 e.2)) := by
  simp only [whitelistStep, Split_two addr p ha hp]
  congr 1
  apply List.map_congr_left
  rintro ⟨k, v⟩ _
  by_cases hk : k = p ++ "/tcp" <;> simp [hk]

/-- C4: a whitelist entry without `':'` leaves the keys of the port map as they are and
replaces every PortConfig, at its key and position, by the same PortConfig with the
address appended to its whitelist; a list of such entries appends the addresses to every
whitelist in the order given. -/
theorem parseWhitelistedCidrs_no_port (m : GoMap (List PortConfig)) :
    (∀ addr : String, ':' ∉ addr.data →
      ∃ m', parseWhitelistedCidrs [addr] m = .ok m' ∧ m'.keys = m.keys ∧
        ∀ k, m'.get? k = (m.get? k).map (List.map fun pc =>
          { pc with WhitelistedCidrs := pc.WhitelistedCidrs ++ [addr] })) ∧
    (∀ addrs : List String, (∀ a ∈ addrs, ':' ∉ a.data) →
      ∃ m', parseWhitelistedCidrs addrs m = .ok m' ∧ m'.keys = m.keys ∧
        ∀ k, m'.get? k = (m.get? k).map (List.map fun pc =>
          { pc with WhitelistedCidrs := pc.WhitelistedCidrs ++ addrs })) := by
  have step : ∀ (m : GoMap (List PortConfig)) (addr : String), ':' ∉ addr.data →
      ∃ m', whitelistStep m addr = .ok m' ∧ m'.keys = m.keys ∧
        ∀ k, m'.get? k = (m.get? k).map (List.map fun pc =>
          { pc with WhitelistedCidrs := pc.WhitelistedCidrs ++ [addr] }) := by
    intro m addr h
    refine ⟨_, whitelistStep_no_port m addr h,
      GoMap.keys_mapValues m (fun _ pcs => pcs.map (appendCidr addr)), ?_⟩
    intro k
    rw [GoMap.get?_mapValues m (fun _ pcs => pcs.map (appendCidr addr))]
    rfl
  constructor
  · intro addr h
    obtain ⟨m', h1, h2, h3⟩ := step m addr h
    exact ⟨m', by simp [parseWhitelistedCidrs, h1], h2, h3⟩
  · intro addrs
    induction addrs generalizing m with
    | nil =>
      intro _
      refine ⟨m, rfl, rfl, ?_⟩
      intro k
      cases m.get? k <;> simp
    | cons a rest ih =>
      intro h
      obtain ⟨m1, h1, h2, h3⟩ := step m a (h a (List.mem_cons_self a rest))
      obtain ⟨m2, g1, g2, g3⟩ := ih m1 (fun b hb => h b (List.mem_cons_of_mem a hb))
      refine ⟨m2, by simp [parseWhitelistedCidrs, h1, g1], g2.trans h2, ?_⟩
      intro k
      rw [g3, h3]
      cases m.get? k <;> simp

/-- Witness of C4 on the entries `10.0.0.0/8`, `1.2.3.4` and a map with two keys. -/
theorem parseWhitelistedCidrs_no_port_witness :
    parseWhitelistedCidrs ["10.0.0.0/8", "1.2.3.4"]
        [("80/tcp", [⟨80, ["9.9.9.9"], "public"⟩, ⟨8080, [], ""⟩]), ("22/tcp", [⟨22, [], ""⟩])] =
      .ok [("80/tcp", [⟨80, ["9.9.9.9", "10.0.0.0/8", "1.2.3.4"], "public"⟩,
                       ⟨8080, ["10.0.0.0/8", "1.2.3.4"], ""⟩]),
           ("22/tcp", [⟨22, ["10.0.0.0/8", "1.2.3.4"], ""⟩])] ∧
    ∃ m', parseWhitelistedCidrs ["10.0.0.0/8", "1.2.3.4"]
        [("80/tcp", [⟨80, ["9.9.9.9"], "public"⟩, ⟨8080, [], ""⟩]), ("22/tcp", [⟨22, [], ""⟩])] =
          .ok m' ∧ m'.keys = ["80/tcp", "22/tcp"] :=
  ⟨rfl,
   let ⟨m', h1, h2, _⟩ := (parseWhitelistedCidrs_no_port
      [("80/tcp", [⟨80, ["9.9.9.9"], "public"⟩, ⟨8080, [], ""⟩]), ("22/tcp", [⟨22, [], ""⟩])]).2
      ["10.0.0.0/8", "1.2.3.4"] (by decide)
   ⟨m', h1, h2⟩⟩

/-- C5: a whitelist entry `addr:P` leaves the keys of the port map as they are, replaces
every PortConfig under `P/tcp` by the same PortConfig with `addr` appended to its
whitelist, leaves the sequence under every other key as it is, and returns the map itself
when `P/tcp` is not one of its keys. -/
theorem parseWhitelistedCidrs_port (m : GoMap (List PortConfig)) (addr P : String)
    (ha : ':' ∉ addr.data) (hP : ':' ∉ P.data) :
    ∃ m', parseWhitelistedCidrs [addr ++ ":" ++ P] m = .ok m' ∧ m'.keys = m.keys ∧
      m'.get? (P ++ "/tcp") = (m.get? (P ++ "/tcp")).map (List.map fun pc =>
          { pc with WhitelistedCidrs := pc.WhitelistedCidrs ++ [addr] }) ∧
      (∀ k, k ≠ P ++ "/tcp" → m'.get? k = m.get? k) ∧
      (P ++ "/tcp" ∉ m.keys → m' = m) := by
  have hf := whitelistStep_port m addr P ha hP
  generalize hg : (fun (port : String) (pcs : List PortConfig) =>
    if port = P ++ "/tcp" then pcs.map (appendCidr addr) else pcs) = g at hf
  refine ⟨_, by simp only [parseWhitelistedCidrs, hf], GoMap.keys_mapValues m g, ?_, ?_, ?_⟩
  · rw [GoMap.get?_mapValues m g, ← hg]
    simp only [if_true]
    rfl
  · intro k hk
    rw [GoMap.get?_mapValues m g, ← hg]
    simp only [hk, if_false]
    cases m.get? k <;> rfl
  · intro hnot
    apply GoMap.mapValues_eq_self m g
    intro k hk v
    have hne : k ≠ P ++ "/tcp" := fun h => hnot (h ▸ hk)
    rw [← hg]
    simp [hne]

/-- Witness of C5 on the entry `1.2.3.4:80` and a map with the keys `80/tcp`, `22/tcp`. -/
theorem parseWhitelistedCidrs_port_witness :
    ∃ m', parseWhitelistedCidrs ["1.2.3.4" ++ ":" ++ "80"]
        [("80/tcp", [⟨80, [], "public"⟩, ⟨8080, [], ""⟩]), ("22/tcp", [⟨22, [], ""⟩])] = .ok m' ∧
      m'.get? "22/tcp" = some [⟨22, [], ""⟩] ∧
      m'.get? "80/tcp" = some [⟨80, ["1.2.3.4"], "public"⟩, ⟨8080, ["1.2.3.4"], ""⟩] :=
  let ⟨m', h1, _, h3, h4, _⟩ := parseWhitelistedCidrs_port
    [("80/tcp", [⟨80, [], "public"⟩, ⟨8080, [], ""⟩]), ("22/tcp", [⟨22, [], ""⟩])]
    "1.2.3.4" "80" (by decide) (by decide)
  ⟨m', h1, (h4 "22/tcp" (by decide)).trans rfl, h3.trans rfl⟩

/-! ## The claims about the gateway and volume stages -/

namespace GoMap

variable {β : Type}

theorem get?_ensure_self (cn : GoMap β) (k : String) (z : β) :
    (if (cn.get? k).isNone then cn.set k z else cn).get? k = some (cn.getD k z) := by
  cases h : cn.get? k with
  | none => simp [getD, h, get?_set_self]
  | some v => simp [getD, h]

theorem get?_ensure_other (cn : GoMap β) (k k' : String) (z : β) (h : k ≠ k') :
    (if (cn.get? k).isNone then cn.set k z else cn).get? k' = cn.get? k' := by
  split
  · exact get?_set_other cn k k' z h
  · rfl

end GoMap

theorem gatewayStep_error (cn : GoMap (GoMap (List String))) (gat : String)
    (h : gat.data.count ':' ≠ 1) : ∃ e, gatewayStep cn gat = .error e := by
  have hl : (Split gat).length ≠ 2 := by rw [Split_length]; omega
  unfold gatewayStep
  split
  · rename_i t0 t1 heq
    rw [heq] at hl
    exact absurd rfl hl
  · exact ⟨_, rfl⟩

theorem parseGateways_append (pre post : List String) (cn : GoMap (GoMap (List String))) :
    parseGateways (pre ++ post) cn =
      match parseGateways pre cn with
      | .error e => .error e
      | .ok cn1 => parseGateways post cn1 := by
  induction pre generalizing cn with
  | nil => rfl
  | cons g rest ih =>
    simp only [List.cons_append, parseGateways]
    cases gatewayStep cn g with
    | error e => rfl
    | ok cn1 => exact ih cn1

theorem parseGateways_error (gats : List String) (cn : GoMap (GoMap (List String)))
    (gat : String) (hmem : gat ∈ gats) (h : gat.data.count ':' ≠ 1) :
    ∃ e, parseGateways gats cn = .error e := by
  induction gats generalizing cn with
  | nil => cases hmem
  | cons g rest ih =>
    simp only [parseGateways]
    rcases List.mem_cons.mp hmem with hg | hg
    · subst hg
      obtain ⟨e, he⟩ := gatewayStep_error cn gat h
      exact ⟨e, by rw [he]⟩
    · cases gatewayStep cn g with
      | error e => exact ⟨e, rfl⟩
      | ok cn1 => exact ih cn1 hg

theorem gatewayStep_ok (cn : GoMap (GoMap (List String))) (i o : String)
    (hi : ':' ∉ i.data) (ho : ':' ∉ o.data) :
    ∃ cn', gatewayStep cn (i ++ ":" ++ o) = .ok cn' ∧
      cn'.get? i = some ((cn.getD i []).set "gateway_to"
        ((cn.getD i []).getD "gateway_to" [] ++ [o])) ∧
      (∀ k, k ≠ i → k ≠ o → cn'.get? k = cn.get? k) ∧
      (o ≠ i → cn'.get? o = some (cn.getD o [])) := by
  have h2 : ∀ k, k ≠ o →
      (if ((if (cn.get? i).isNone then cn.set i [] else cn).get? o).isNone
        then (if (cn.get? i).isNone then cn.set i [] else cn).set o []
        else (if (cn.get? i).isNone then cn.set i [] else cn)).get? k =
      (if (cn.get? i).isNone then cn.set i [] else cn).get? k :=
    fun k hk => GoMap.get?_ensure_other _ o k [] (Ne.symm hk)
  have hin : (if ((if (cn.get? i).isNone then cn.set i [] else cn).get? o).isNone
        then (if (cn.get? i).isNone then cn.set i [] else cn).set o []
        else (if (cn.get? i).isNone then cn.set i [] else cn)).get? i =
      some (cn.getD i []) := by
    by_cases hoi : o = i
    · subst hoi
      rw [GoMap.get?_ensure_self, GoMap.getD, GoMap.get?_ensure_self]
      rfl
    · rw [h2 i (Ne.symm hoi), GoMap.get?_ensure_self]
  refine ⟨_, by simp only [gatewayStep, Split_two i o hi ho]; rfl, ?_, ?_, ?_⟩
  · rw [GoMap.get?_set_self]
    simp only [GoMap.getD, hin, Option.getD_some]
  · intro k hki hko
    rw [GoMap.get?_set_other _ i k _ (Ne.symm hki), h2 k hko,
      GoMap.get?_ensure_other cn i k [] (Ne.symm hki)]
  · intro hoi
    rw [GoMap.get?_set_other _ i o _ (Ne.symm hoi), GoMap.get?_ensure_self, GoMap.getD,
      GoMap.get?_ensure_other cn i o [] (Ne.symm hoi)]
    rfl

/-- C8: after the gateway arguments `pre`, a gateway argument `i:o` gives a map with both
keys `i` and `o`, in which the entry of `i` has the relation `gateway_to` equal to its
previous value with `o` appended and every other relation as before, every network other
than `i` and `o` is as before (present with the same entry, or absent), and `o`, when it
is not `i`, has its previous entry, or the empty entry when it was missing; a gateway
argument whose number of `':'` is not one makes the gateway stage fail. -/
theorem parseGateways_gateway :
    (∀ (pre : List String) (cn0 cn : GoMap (GoMap (List String))) (i o : String),
      ':' ∉ i.data → ':' ∉ o.data → parseGateways pre cn0 = .ok cn →
      ∃ cn' inner, parseGateways (pre ++ [i ++ ":" ++ o]) cn0 = .ok cn' ∧
        i ∈ cn'.keys ∧ o ∈ cn'.keys ∧
        cn'.get? i = some inner ∧
        inner.get? "gateway_to" = some ((cn.getD i []).getD "gateway_to" [] ++ [o]) ∧
        (∀ r, r ≠ "gateway_to" → inner.get? r = (cn.getD i []).get? r) ∧
        (∀ k, k ≠ i → k ≠ o → cn'.get? k = cn.get? k) ∧
        (o ≠ i → cn'.get? o = some (cn.getD o []))) ∧
    (∀ (gats : List String) (cn0 : GoMap (GoMap (List String))) (gat : String),
      gat ∈ gats → gat.data.count ':' ≠ 1 → ∃ e, parseGateways gats cn0 = .error e) := by
  refine ⟨?_, parseGateways_error⟩
  intro pre cn0 cn i o hi ho hpre
  obtain ⟨cn', h1, h2, h3, h4⟩ := gatewayStep_ok cn i o hi ho
  have hrun : parseGateways (pre ++ [i ++ ":" ++ o]) cn0 = .ok cn' := by
    rw [parseGateways_append, hpre]
    simp only [parseGateways, h1]
  have hik : i ∈ cn'.keys := (GoMap.mem_keys_iff_get? cn' i).2 (by rw [h2]; rfl)
  have hok : o ∈ cn'.keys := by
    by_cases hoi : o = i
    · rw [hoi]; exact hik
    · exact (GoMap.mem_keys_iff_get? cn' o).2 (by rw [h4 hoi]; rfl)
  refine ⟨cn', _, hrun, hik, hok, h2, GoMap.get?_set_self _ _ _, ?_, h3, h4⟩
  intro r hr
  exact GoMap.get?_set_other _ _ _ _ (Ne.symm hr)

/-- Witness of C8: the gateway `private:public` after `private:predictor`. -/
theorem parseGateways_gateway_witness :
    ∃ cn' inner, parseGateways (["private:predictor"] ++ ["private" ++ ":" ++ "public"])
        [("public", [("gateway_to", ["x"])])] = .ok cn' ∧
      "private" ∈ cn'.keys ∧ "public" ∈ cn'.keys ∧
      cn'.get? "private" = some inner ∧
      inner.get? "gateway_to" = some (["predictor"] ++ ["public"]) ∧
      cn'.get? "public" = some [("gateway_to", ["x"])] :=
  let ⟨cn', inner, h1, h2, h3, h4, h5, _, _, h8⟩ := parseGateways_gateway.1
    ["private:predictor"] [("public", [("gateway_to", ["x"])])]
    [("public", [("gateway_to", ["x"])]), ("private", [("gateway_to", ["predictor"])]),
      ("predictor", [])]
    "private" "public" (by decide) (by decide) rfl
  ⟨cn', inner, h1, h2, h3, h4, h5, h8 (by decide)⟩

theorem volumeStep_error (m : GoMap VolumeConfig) (vol : String)
    (h : 2 ≤ vol.data.count ':') : ∃ e, volumeStep m vol = .error e := by
  have hl : 3 ≤ (Split vol).length := by rw [Split_length]; omega
  unfold volumeStep
  split
  · rename_i t0 t1 heq
    rw [heq] at hl
    simp at hl
  · rename_i t0 heq
    rw [heq] at hl
    simp at hl
  · exact ⟨_, rfl⟩

theorem volumeLoop_append (pre post : List String) (m : GoMap VolumeConfig) :
    volumeLoop m (pre ++ post) =
      match volumeLoop m pre with
      | .error e => .error e
      | .ok m1 => volumeLoop m1 post := by
  induction pre generalizing m with
  | nil => rfl
  | cons g rest ih =>
    simp only [List.cons_append, volumeLoop]
    cases volumeStep m g with
    | error e => rfl
    | ok m1 => exact ih m1

theorem volumeLoop_error (vols : List String) (m : GoMap VolumeConfig)
    (vol : String) (hmem : vol ∈ vols) (h : 2 ≤ vol.data.count ':') :
    ∃ e, volumeLoop m vols = .error e := by
  induction vols generalizing m with
  | nil => cases hmem
  | cons g rest ih =>
    simp only [volumeLoop]
    rcases List.mem_cons.mp hmem with hg | hg
    · subst hg
      obtain ⟨e, he⟩ := volumeStep_error m vol h
      exact ⟨e, by rw [he]⟩
    · cases volumeStep m g with
      | error e => exact ⟨e, rfl⟩
      | ok m1 => exact ih m1 hg

theorem parseVolumes_snoc (volumes0 m : GoMap VolumeConfig) (pre : List String) (vol : String)
    (hpre : parseVolumes volumes0 pre = .ok m) :
    parseVolumes volumes0 (pre ++ [vol]) =
      volumeStep (if pre.length > 0 then m else []) vol := by
  cases pre with
  | nil =>
    simp [parseVolumes, volumeLoop]
    cases volumeStep [] vol <;> rfl
  | cons p rest =>
    have h1 : volumeLoop [] (p :: rest) = .ok m := by simpa [parseVolumes] using hpre
    have h2 : parseVolumes volumes0 (p :: rest ++ [vol]) =
        volumeLoop [] ((p :: rest) ++ [vol]) := by simp [parseVolumes]
    rw [h2, volumeLoop_append, h1]
    simp only [volumeLoop, List.length_cons, gt_iff_lt, Nat.zero_lt_succ, if_true]
    cases volumeStep m vol <;> rfl

/-- C9: after the volume arguments `pre`, a bare `path` gives a map with
`volumes[path] = {size: "10"}` and `path:size` one with `volumes[path] = {size: size}`;
a volume argument with two or more `':'` makes the volume stage fail. -/
theorem parseVolumes_volume :
    (∀ (volumes0 m : GoMap VolumeConfig) (pre : List String) (path : String),
      ':' ∉ path.data → parseVolumes volumes0 pre = .ok m →
      ∃ m', parseVolumes volumes0 (pre ++ [path]) = .ok m' ∧ m'.get? path = some ⟨"10"⟩) ∧
    (∀ (volumes0 m : GoMap VolumeConfig) (pre : List String) (path size : String),
      ':' ∉ path.data → ':' ∉ size.data → parseVolumes volumes0 pre = .ok m →
      ∃ m', parseVolumes volumes0 (pre ++ [path ++ ":" ++ size]) = .ok m' ∧
        m'.get? path = some ⟨size⟩) ∧
    (∀ (volumes0 : GoMap VolumeConfig) (vols : List String) (vol : String),
      vol ∈ vols → 2 ≤ vol.data.count ':' → ∃ e, parseVolumes volumes0 vols = .error e) := by
  refine ⟨?_, ?_, ?_⟩
  · intro volumes0 m pre path hp hpre
    refine ⟨_, ?_, GoMap.get?_set_self (if pre.length > 0 then m else []) path ⟨"10"⟩⟩
    rw [parseVolumes_snoc volumes0 m pre path hpre]
    simp only [volumeStep, Split_one path hp]
  · intro volumes0 m pre path size hp hs hpre
    refine ⟨_, ?_, GoMap.get?_set_self (if pre.length > 0 then m else []) path ⟨size⟩⟩
    rw [parseVolumes_snoc volumes0 m pre _ hpre]
    simp only [volumeStep, Split_two path size hp hs]
  · intro volumes0 vols vol hmem h
    exact volumeLoop_error vols _ vol hmem h

/-- Witness of C9 on `/data`, `/data:50` and `/data:50:extra`. -/
theorem parseVolumes_volume_witness :
    (∃ m', parseVolumes [] ([] ++ ["/data"]) = .ok m' ∧ m'.get? "/data" = some ⟨"10"⟩) ∧
    (∃ m', parseVolumes [] (["/log"] ++ ["/data" ++ ":" ++ "50"]) = .ok m' ∧
      m'.get? "/data" = some ⟨"50"⟩) ∧
    (∃ e, parseVolumes [] ["/log", "/data:50:extra"] = .error e) :=
  ⟨parseVolumes_volume.1 [] [] [] "/data" (by decide) rfl,
   parseVolumes_volume.2.1 [] [("/log", ⟨"10"⟩)] ["/log"] "/data" "50" (by decide) (by decide) rfl,
   parseVolumes_volume.2.2 [] ["/log", "/data:50:extra"] "/data:50:extra" (by decide)
     (by decide)⟩

/-! ## The claims about the networks of the compiled document -/

theorem parseNetworks_keys (nets : List String) (cn : GoMap (GoMap (List String))) :
    (∀ k ∈ cn.keys, k ∈ (parseNetworks cn nets).keys) ∧
    (∀ n ∈ nets, n ∈ (parseNetworks cn nets).keys) := by
  induction nets generalizing cn with
  | nil => exact ⟨fun k hk => hk, fun n hn => by cases hn⟩
  | cons a rest ih =>
    have ih' := ih (cn.set a [])
    constructor
    · intro k hk
      exact ih'.1 k (GoMap.mem_keys_set_of_mem cn a k [] hk)
    · intro n hn
      rcases List.mem_cons.mp hn with h | h
      · subst h
        exact ih'.1 n (GoMap.mem_keys_set_self cn n [])
      · exact ih'.2 n h

theorem mem_keys_ensure_of_mem {β : Type} (cn : GoMap β) (k k' : String) (z : β)
    (h : k' ∈ cn.keys) : k' ∈ (if (cn.get? k).isNone then cn.set k z else cn).keys := by
  split
  · exact GoMap.mem_keys_set_of_mem cn k k' z h
  · exact h

theorem mem_keys_ensure_self {β : Type} (cn : GoMap β) (k : String) (z : β) :
    k ∈ (if (cn.get? k).isNone then cn.set k z else cn).keys := by
  rw [GoMap.mem_keys_iff_get?, GoMap.get?_ensure_self]
  rfl

theorem gatewayStep_keys (cn cn' : GoMap (GoMap (List String))) (gat : String)
    (h : gatewayStep cn gat = .ok cn') :
    (∀ k ∈ cn.keys, k ∈ cn'.keys) ∧ (∀ t ∈ Split gat, t ∈ cn'.keys) := by
  unfold gatewayStep at h
  split at h
  · rename_i t0 t1 heq
    simp only [Except.ok.injEq] at h
    subst h
    constructor
    · intro k hk
      exact GoMap.mem_keys_set_of_mem _ _ _ _
        (mem_keys_ensure_of_mem _ _ _ _ (mem_keys_ensure_of_mem _ _ _ _ hk))
    · intro t ht
      rw [heq] at ht
      simp only [List.mem_cons, List.mem_singleton, List.not_mem_nil, or_false] at ht
      rcases ht with ht | ht
      · subst ht
        exact GoMap.mem_keys_set_self _ _ _
      · subst ht
        exact GoMap.mem_keys_set_of_mem _ _ _ _ (mem_keys_ensure_self _ _ _)
  · cases h

theorem parseGateways_keys (gats : List String) (cn cn' : GoMap (GoMap (List String)))
    (h : parseGateways gats cn = .ok cn') :
    (∀ k ∈ cn.keys, k ∈ cn'.keys) ∧ (∀ gat ∈ gats, ∀ t ∈ Split gat, t ∈ cn'.keys) := by
  induction gats generalizing cn with
  | nil =>
    simp only [parseGateways, Except.ok.injEq] at h
    subst h
    exact ⟨fun k hk => hk, fun g hg => by cases hg⟩
  | cons g rest ih =>
    simp only [parseGateways] at h
    cases hs : gatewayStep cn g with
    | error e => rw [hs] at h; cases h
    | ok cn1 =>
      rw [hs] at h
      have h1 := gatewayStep_keys cn cn1 g hs
      have h2 := ih cn1 h
      constructor
      · intro k hk
        exact h2.1 k (h1.1 k hk)
      · intro gat hgat t ht
        rcases List.mem_cons.mp hgat with hg | hg
        · subst hg
          exact h2.1 t (h1.2 t ht)
        · exact h2.2 gat hg t ht

theorem serviceAddCompile_stages (w : World) (f : Flags) (args spec : Add)
    (h : serviceAddCompile w f args = .ok spec) :
    parseGateways f.cmdAddGateway (parseNetworks args.ContainerNetwork f.cmdAddNetwork) =
      .ok spec.ContainerNetwork ∧
    ∃ ports, parsePublishedPort f.addPublish = .ok ports ∧
      parseWhitelistedCidrs f.cmdAddNetworkAllow ports = .ok spec.ContainerPorts := by
  unfold serviceAddCompile at h
  simp only at h
  split at h
  · cases h
  split at h
  · cases h
  split at h
  · cases h
  split at h
  · cases h
  split at h
  · cases h
  split at h
  · cases h
  simp only [Except.ok.injEq] at h
  subst h
  exact ⟨by assumption, _, by assumption, by assumption⟩

theorem mem_keys_set_cases {β : Type} (m : GoMap β) (k k' : String) (v : β)
    (h : k' ∈ (m.set k v).keys) : k' = k ∨ k' ∈ m.keys := by
  by_cases hk : k = k'
  · exact Or.inl hk.symm
  · right
    rw [GoMap.mem_keys_iff_get?, GoMap.get?_set_other m k k' v hk] at h
    exact (GoMap.mem_keys_iff_get? m k').2 h

theorem mem_keys_ensure_cases {β : Type} (cn : GoMap β) (k k' : String) (z : β)
    (h : k' ∈ (if (cn.get? k).isNone then cn.set k z else cn).keys) :
    k' = k ∨ k' ∈ cn.keys := by
  split at h
  · exact mem_keys_set_cases cn k k' z h
  · exact Or.inr h

theorem parseNetworks_keys_cases (nets : List String) (cn : GoMap (GoMap (List String)))
    (k : String) (h : k ∈ (parseNetworks cn nets).keys) : k ∈ cn.keys ∨ k ∈ nets := by
  induction nets generalizing cn with
  | nil => exact Or.inl h
  | cons a rest ih =>
    rcases ih (cn.set a []) h with h1 | h1
    · rcases mem_keys_set_cases cn a k [] h1 with h2 | h2
      · exact Or.inr (h2 ▸ List.mem_cons_self a rest)
      · exact Or.inl h2
    · exact Or.inr (List.mem_cons_of_mem a h1)

theorem gatewayStep_keys_cases (cn cn' : GoMap (GoMap (List String))) (gat : String)
    (h : gatewayStep cn gat = .ok cn') (k : String) (hk : k ∈ cn'.keys) :
    k ∈ cn.keys ∨ k ∈ Split gat := by
  unfold gatewayStep at h
  split at h
  · rename_i t0 t1 heq
    simp only [Except.ok.injEq] at h
    subst h
    rw [heq]
    rcases mem_keys_set_cases _ _ _ _ hk with h1 | h1
    · exact Or.inr (by simp [h1])
    · rcases mem_keys_ensure_cases _ _ _ _ h1 with h2 | h2
      · exact Or.inr (by simp [h2])
      · rcases mem_keys_ensure_cases _ _ _ _ h2 with h3 | h3
        · exact Or.inr (by simp [h3])
        · exact Or.inl h3
  · cases h

theorem parseGateways_keys_cases (gats : List String) (cn cn' : GoMap (GoMap (List String)))
    (h : parseGateways gats cn = .ok cn') (k : String) (hk : k ∈ cn'.keys) :
    k ∈ cn.keys ∨ ∃ gat ∈ gats, k ∈ Split gat := by
  induction gats generalizing cn with
  | nil =>
    simp only [parseGateways, Except.ok.injEq] at h
    subst h
    exact Or.inl hk
  | cons g rest ih =>
    simp only [parseGateways] at h
    cases hs : gatewayStep cn g with
    | error e => rw [hs] at h; cases h
    | ok cn1 =>
      rw [hs] at h
      rcases ih cn1 h with h1 | ⟨gat, hgat, hsplit⟩
      · rcases gatewayStep_keys_cases cn cn1 g hs k h1 with h2 | h2
        · exact Or.inl h2
        · exact Or.inr ⟨g, List.mem_cons_self g rest, h2⟩
      · exact Or.inr ⟨gat, List.mem_cons_of_mem g hgat, hsplit⟩

/-- C6 as stated fails: with `--publish public:80` and no `--network` or `--gateway`, the
compiled document has a PortConfig on the network `public` and no key `public` in
containerNetwork. -/
theorem serviceAddCompile_publish_network_missing :
    ∃ spec, serviceAddCompile okWorld { defaultFlags with addPublish := ["public:80"] }
        defaultAdd = .ok spec ∧
      spec.ContainerPorts = [("80/tcp", [⟨80, [], "public"⟩])] ∧
      spec.ContainerNetwork.keys = [] :=
  ⟨_, rfl, rfl, rfl⟩

/-- C6 (amended): in the document `serviceAdd` compiles, every `--network` value and both
the input and the output of every `--gateway` rule `i:o` are keys of containerNetwork;
every key of containerNetwork is a key of the map on entry, a `--network` value or a
token of a `--gateway` rule, and containerNetwork is the same whatever the `--publish`
and `--network-allow` arguments are; the publish rules are recorded in containerPorts,
which is the result of the publish parser followed by the whitelist parser. -/
theorem serviceAddCompile_networks_present (w : World) (f : Flags) (args spec : Add)
    (h : serviceAddCompile w f args = .ok spec) :
    (∀ n ∈ f.cmdAddNetwork, n ∈ spec.ContainerNetwork.keys) ∧
    (∀ i o : String, ':' ∉ i.data → ':' ∉ o.data → (i ++ ":" ++ o) ∈ f.cmdAddGateway →
      i ∈ spec.ContainerNetwork.keys ∧ o ∈ spec.ContainerNetwork.keys) ∧
    (∀ k ∈ spec.ContainerNetwork.keys,
      k ∈ args.ContainerNetwork.keys ∨ k ∈ f.cmdAddNetwork ∨
        ∃ gat ∈ f.cmdAddGateway, k ∈ Split gat) ∧
    (∀ (pubs allow : List String) (spec' : Add),
      serviceAddCompile w { f with addPublish := pubs, cmdAddNetworkAllow := allow } args =
        .ok spec' →
      spec'.ContainerNetwork = spec.ContainerNetwork) ∧
    (∃ ports, parsePublishedPort f.addPublish = .ok ports ∧
      parseWhitelistedCidrs f.cmdAddNetworkAllow ports = .ok spec.ContainerPorts) := by
  have hst := serviceAddCompile_stages w f args spec h
  have hg := parseGateways_keys _ _ _ hst.1
  refine ⟨?_, ?_, ?_, ?_, hst.2⟩
  · intro n hn
    exact hg.1 n ((parseNetworks_keys f.cmdAddNetwork args.ContainerNetwork).2 n hn)
  · intro i o hi ho hmem
    have hs := hg.2 _ hmem
    rw [Split_two i o hi ho] at hs
    exact ⟨hs i (by simp), hs o (by simp)⟩
  · intro k hk
    rcases parseGateways_keys_cases _ _ _ hst.1 k hk with h1 | h1
    · rcases parseNetworks_keys_cases _ _ k h1 with h2 | h2
      · exact Or.inl h2
      · exact Or.inr (Or.inl h2)
    · exact Or.inr (Or.inr h1)
  · intro pubs allow spec' h'
    have hst' := (serviceAddCompile_stages w
      { f with addPublish := pubs, cmdAddNetworkAllow := allow } args spec' h').1
    have heq : (Except.ok spec'.ContainerNetwork : Except String _) =
        .ok spec.ContainerNetwork := hst'.symm.trans hst.1
    exact Except.ok.inj heq

/-- Witness of C6 (amended): `--network private --gateway private:public -p internal:80`. -/
theorem serviceAddCompile_networks_present_witness :
    "private" ∈ GoMap.keys [("private", [("gateway_to", ["public"])]), ("public", [])] ∧
    "public" ∈ GoMap.keys [("private", [("gateway_to", ["public"])]), ("public", [])] ∧
    "internal" ∉ GoMap.keys [("private", [("gateway_to", ["public"])]), ("public", [])] ∧
    ∃ ports, parsePublishedPort ["internal:80"] = .ok ports ∧
      parseWhitelistedCidrs [] ports = .ok [("80/tcp", [⟨80, [], "internal"⟩])] :=
  have h := serviceAddCompile_networks_present okWorld
    { defaultFlags with cmdAddNetwork := ["private"],
                        cmdAddGateway := ["private" ++ ":" ++ "public"],
                        addPublish := ["internal:80"] }
    defaultAdd
    { defaultAdd with
        ContainerEnvironment := some []
        ContainerNetwork := [("private", [("gateway_to", ["public"])]), ("public", [])]
        ContainerPorts := [("80/tcp", [⟨80, [], "internal"⟩])] }
    rfl
  ⟨h.1 "private" (by simp), (h.2.1 "private" "public" (by decide) (by decide) (by simp)).2,
   fun hk => absurd (h.2.2.1 "internal" hk) (by decide), h.2.2.2.2⟩

/-! ## The claims about the create-or-redeploy protocol -/

/-- C10: when the document compiles and is marshalled, the create call has no transport
error and redeploy fallback is on, a status 409, or a status below 400 with a stream error
that decodes to code 409, gives exactly one call of the redeploy path and no call of the
start sequence; with redeploy fallback off there is no call of the redeploy path whatever
the collaborators return, a status 409 is read and reported like any status of 400 or
more, and a stream error is reported whatever it decodes to. -/
theorem serviceAdd_conflict (w : World) (f : Flags) (args : Add) :
    (∀ spec body, serviceAddCompile w f args = .ok spec → w.MarshalIndent spec = .ok body →
      w.streamErr = none → f.cmdAddRedeploy = true →
      (w.streamCode = 409 ∨
        (w.streamCode < 400 ∧ w.displayErr ≠ none ∧
          ∃ e, w.DecodeError w.displayLine = some e ∧ e.Code = 409)) →
      redeployCalls (serviceAdd w f args) = 1 ∧ startCalls (serviceAdd w f args) = 0) ∧
    (f.cmdAddRedeploy = false → redeployCalls (serviceAdd w f args) = 0) ∧
    (∀ spec body, serviceAddCompile w f args = .ok spec → w.MarshalIndent spec = .ok body →
      w.streamErr = none → f.cmdAddRedeploy = false → w.streamCode = 409 →
      serviceAdd w f args =
        .Stream "POST" ("/applications/" ++ spec.Application ++ "/services/" ++ spec.Service)
            body :: .ReadAll ::
          (match w.ReadAll with
           | .error _ => []
           | .ok b => [.FormatOutputError b])) ∧
    (∀ spec body, serviceAddCompile w f args = .ok spec → w.MarshalIndent spec = .ok body →
      w.streamErr = none → f.cmdAddRedeploy = false → w.streamCode < 400 →
      w.displayErr ≠ none →
      serviceAdd w f args =
        [.Stream "POST" ("/applications/" ++ spec.Application ++ "/services/" ++ spec.Service)
            body, .DisplayStream, .FormatOutputError w.displayLine]) := by
  refine ⟨?_, ?_, ?_, ?_⟩
  · intro spec body hc hm he hr hconf
    rcases hconf with h409 | ⟨hlt, hd, e, hdec, hcode⟩
    · simp [serviceAdd, serviceAddSubmit, hc, hm, he, hr, h409, redeployCalls, startCalls,
        ensureMode]
    · have h1 : ¬ w.streamCode = 409 := by omega
      have h2 : ¬ w.streamCode ≥ 400 := by omega
      cases hde : w.displayErr with
      | none => exact absurd hde hd
      | some msg =>
        simp [serviceAdd, serviceAddSubmit, hc, hm, he, hr, h1, h2, hde, hdec, hcode,
          redeployCalls, startCalls, ensureMode]
  · intro hr
    unfold serviceAdd
    cases serviceAddCompile w f args with
    | error e => simp [redeployCalls]
    | ok spec =>
      simp only [serviceAddSubmit, hr]
      cases w.MarshalIndent spec with
      | error e => simp [redeployCalls]
      | ok body =>
        cases w.streamErr with
        | some e => simp [redeployCalls]
        | none =>
          by_cases h400 : w.streamCode ≥ 400
          · cases w.ReadAll <;> simp [redeployCalls, h400]
          · cases w.displayErr with
            | none => simp [redeployCalls, h400]
            | some msg =>
              cases w.DecodeError w.displayLine <;> simp [redeployCalls, h400]
  · intro spec body hc hm he hr h409
    simp [serviceAdd, serviceAddSubmit, hc, hm, he, hr, h409]
  · intro spec body hc hm he hr hlt hd
    have h2 : ¬ w.streamCode ≥ 400 := by omega
    cases hde : w.displayErr with
    | none => exact absurd hde hd
    | some msg =>
      cases hdec : w.DecodeError w.displayLine <;>
        simp [serviceAdd, serviceAddSubmit, hc, hm, he, hr, h2, hde, hdec]

/-- Witness of C10: a status 409 and a mid-stream error of code 409 with `--redeploy`,
and a status 409 without it. -/
theorem serviceAdd_conflict_witness :
    (redeployCalls (serviceAdd { okWorld with streamCode := 409 }
        { defaultFlags with cmdAddRedeploy := true } defaultAdd) = 1 ∧
      startCalls (serviceAdd { okWorld with streamCode := 409 }
        { defaultFlags with cmdAddRedeploy := true } defaultAdd) = 0) ∧
    (redeployCalls (serviceAdd
        { okWorld with displayErr := some "conflict", DecodeError := fun _ => some ⟨409⟩ }
        { defaultFlags with cmdAddRedeploy := true } defaultAdd) = 1 ∧
      startCalls (serviceAdd
        { okWorld with displayErr := some "conflict", DecodeError := fun _ => some ⟨409⟩ }
        { defaultFlags with cmdAddRedeploy := true } defaultAdd) = 0) ∧
    serviceAdd { okWorld with streamCode := 409, ReadAll := .ok "exists" } defaultFlags
        defaultAdd =
      [.Stream "POST" "/applications/app/services/redis" "{}", .ReadAll,
        .FormatOutputError "exists"] ∧
    serviceAdd { okWorld with displayErr := some "conflict", displayLine := "exists",
                              DecodeError := fun _ => some ⟨409⟩ } defaultFlags defaultAdd =
      [.Stream "POST" "/applications/app/services/redis" "{}", .DisplayStream,
        .FormatOutputError "exists"] :=
  ⟨(serviceAdd_conflict { okWorld with streamCode := 409 }
      { defaultFlags with cmdAddRedeploy := true } defaultAdd).1
      { defaultAdd with ContainerEnvironment := some [] } "{}" rfl rfl rfl rfl (Or.inl rfl),
   (serviceAdd_conflict
      { okWorld with displayErr := some "conflict", DecodeError := fun _ => some ⟨409⟩ }
      { defaultFlags with cmdAddRedeploy := true } defaultAdd).1
      { defaultAdd with ContainerEnvironment := some [] } "{}" rfl rfl rfl rfl
      (Or.inr ⟨by decide, by simp, ⟨409⟩, rfl, rfl⟩),
   (serviceAdd_conflict { okWorld with streamCode := 409, ReadAll := .ok "exists" }
      defaultFlags defaultAdd).2.2.1
      { defaultAdd with ContainerEnvironment := some [] } "{}" rfl rfl rfl rfl rfl,
   (serviceAdd_conflict { okWorld with displayErr := some "conflict", displayLine := "exists",
                                       DecodeError := fun _ => some ⟨409⟩ }
      defaultFlags defaultAdd).2.2.2
      { defaultAdd with ContainerEnvironment := some [] } "{}" rfl rfl rfl rfl (by decide)
      (by simp)⟩

/-! ## The claims about failing compile stages -/

theorem publishStep_error (v : GoMap (List PortConfig)) (pub : String)
    (h : 3 ≤ pub.data.count ':') : ∃ e, publishStep v pub = .error e := by
  have hl : 4 ≤ (Split pub).length := by rw [Split_length]; omega
  unfold publishStep
  split
  · rename_i s0 heq
    rw [heq] at hl
    simp at hl
  · rename_i s0 s1 heq
    rw [heq] at hl
    simp at hl
  · rename_i s0 s1 s2 heq
    rw [heq] at hl
    simp at hl
  · exact ⟨_, rfl⟩

theorem publishLoop_error (pubs : List String) (v : GoMap (List PortConfig)) (pub : String)
    (hmem : pub ∈ pubs) (h : 3 ≤ pub.data.count ':') : ∃ e, publishLoop v pubs = .error e := by
  induction pubs generalizing v with
  | nil => cases hmem
  | cons g rest ih =>
    simp only [publishLoop]
    rcases List.mem_cons.mp hmem with hg | hg
    · subst hg
      obtain ⟨e, he⟩ := publishStep_error v pub h
      exact ⟨e, by rw [he]⟩
    · cases publishStep v g with
      | error e => exact ⟨e, rfl⟩
      | ok v1 => exact ih v1 hg

theorem whitelistStep_error (m : GoMap (List PortConfig)) (network : String)
    (h : 2 ≤ network.data.count ':') : ∃ e, whitelistStep m network = .error e := by
  have hl : 3 ≤ (Split network).length := by rw [Split_length]; omega
  unfold whitelistStep
  split
  · rename_i addr heq
    rw [heq] at hl
    simp at hl
  · rename_i addr p heq
    rw [heq] at hl
    simp at hl
  · exact ⟨_, rfl⟩

theorem parseWhitelistedCidrs_error (nets : List String) (m : GoMap (List PortConfig))
    (network : String) (hmem : network ∈ nets) (h : 2 ≤ network.data.count ':') :
    ∃ e, parseWhitelistedCidrs nets m = .error e := by
  induction nets generalizing m with
  | nil => cases hmem
  | cons g rest ih =>
    simp only [parseWhitelistedCidrs]
    rcases List.mem_cons.mp hmem with hg | hg
    · subst hg
      obtain ⟨e, he⟩ := whitelistStep_error m network h
      exact ⟨e, by rw [he]⟩
    · cases whitelistStep m g with
      | error e => exact ⟨e, rfl⟩
      | ok m1 => exact ih m1 hg

theorem serviceAddCompile_error_of_command (w : World) (f : Flags) (args : Add) (e : String)
    (hne : f.cmdAddCommand ≠ "") (h : w.shlexSplit f.cmdAddCommand = .error e) :
    ∃ e', serviceAddCompile w f args = .error e' := by
  unfold serviceAddCompile
  simp only [hne, h, ne_eq, not_false_eq_true, if_true]
  exact ⟨_, rfl⟩

theorem serviceAddCompile_error_of_entrypoint (w : World) (f : Flags) (args : Add)
    (e : String) (hne : f.cmdAddEntrypoint ≠ "")
    (h : w.shlexSplit f.cmdAddEntrypoint = .error e) :
    ∃ e', serviceAddCompile w f args = .error e' := by
  unfold serviceAddCompile
  simp only [hne, h, ne_eq, not_false_eq_true, if_true]
  split
  · exact ⟨_, rfl⟩
  · exact ⟨_, rfl⟩

theorem serviceAddCompile_error_of_volumes (w : World) (f : Flags) (args : Add) (e : String)
    (h : parseVolumes args.Volumes f.cmdAddVolume = .error e) :
    ∃ e', serviceAddCompile w f args = .error e' := by
  unfold serviceAddCompile
  simp only [h]
  repeat' (first | exact ⟨_, rfl⟩ | split)

theorem serviceAddCompile_error_of_gateways (w : World) (f : Flags) (args : Add) (e : String)
    (h : parseGateways f.cmdAddGateway
      (parseNetworks args.ContainerNetwork f.cmdAddNetwork) = .error e) :
    ∃ e', serviceAddCompile w f args = .error e' := by
  unfold serviceAddCompile
  simp only [h]
  repeat' (first | exact ⟨_, rfl⟩ | split)

theorem serviceAddCompile_error_of_publish (w : World) (f : Flags) (args : Add) (e : String)
    (h : parsePublishedPort f.addPublish = .error e) :
    ∃ e', serviceAddCompile w f args = .error e' := by
  unfold serviceAddCompile
  simp only [h]
  repeat' (first | exact ⟨_, rfl⟩ | split)

theorem serviceAddCompile_error_of_whitelist (w : World) (f : Flags) (args : Add)
    (h : ∀ ports, ∃ e, parseWhitelistedCidrs f.cmdAddNetworkAllow ports = .error e) :
    ∃ e', serviceAddCompile w f args = .error e' := by
  unfold serviceAddCompile
  simp only
  repeat' (first | exact ⟨_, rfl⟩ | split)
  rename_i ports _ _ _ heq
  obtain ⟨e, he⟩ := h ports
  rw [he] at heq
  cases heq

theorem serviceAdd_of_compile_error (w : World) (f : Flags) (args : Add)
    (h : ∃ e, serviceAddCompile w f args = .error e) : serviceAdd w f args = [] := by
  obtain ⟨e, he⟩ := h
  simp only [serviceAdd, he]

theorem publishLoop_error_of_step (pubs : List String) (v : GoMap (List PortConfig))
    (pub : String) (hmem : pub ∈ pubs) (h : ∀ v', ∃ e, publishStep v' pub = .error e) :
    ∃ e, publishLoop v pubs = .error e := by
  induction pubs generalizing v with
  | nil => cases hmem
  | cons g rest ih =>
    simp only [publishLoop]
    rcases List.mem_cons.mp hmem with hg | hg
    · subst hg
      obtain ⟨e, he⟩ := h v
      exact ⟨e, by rw [he]⟩
    · cases publishStep v g with
      | error e => exact ⟨e, rfl⟩
      | ok v1 => exact ih v1 hg

theorem publishStep_error_bare (v : GoMap (List PortConfig)) (pub e : String)
    (hc : ':' ∉ pub.data) (h : parsePort pub = .error e) :
    ∃ e', publishStep v pub = .error e' := by
  simp only [publishStep, Split_one pub hc, h]
  exact ⟨_, rfl⟩

/-- C11: `serviceAdd` makes no call at all, so no create request, when a compile stage
fails: when the command or the entrypoint override is set and `shlex.Split` fails on it,
when a volume has two or more `':'`, when a gateway has not exactly one `':'`, when the
publish stage fails (as it does on a rule with three or more `':'` and on a bare rule
that is not a port number), when a whitelist entry has two or more `':'`, and on any
failure of the compile stages whatever. -/
theorem serviceAdd_compile_failure (w : World) (f : Flags) (args : Add) :
    (∀ e, f.cmdAddCommand ≠ "" → w.shlexSplit f.cmdAddCommand = .error e →
      serviceAdd w f args = []) ∧
    (∀ e, f.cmdAddEntrypoint ≠ "" → w.shlexSplit f.cmdAddEntrypoint = .error e →
      serviceAdd w f args = []) ∧
    (∀ vol ∈ f.cmdAddVolume, 2 ≤ vol.data.count ':' → serviceAdd w f args = []) ∧
    (∀ gat ∈ f.cmdAddGateway, gat.data.count ':' ≠ 1 → serviceAdd w f args = []) ∧
    (∀ e, parsePublishedPort f.addPublish = .error e → serviceAdd w f args = []) ∧
    (∀ pub ∈ f.addPublish, 3 ≤ pub.data.count ':' → serviceAdd w f args = []) ∧
    (∀ pub ∈ f.addPublish, ∀ e, ':' ∉ pub.data → parsePort pub = .error e →
      serviceAdd w f args = []) ∧
    (∀ net ∈ f.cmdAddNetworkAllow, 2 ≤ net.data.count ':' → serviceAdd w f args = []) ∧
    (∀ e, serviceAddCompile w f args = .error e → serviceAdd w f args = []) := by
  refine ⟨?_, ?_, ?_, ?_, ?_, ?_, ?_, ?_, ?_⟩
  · intro e hne h
    exact serviceAdd_of_compile_error w f args
      (serviceAddCompile_error_of_command w f args e hne h)
  · intro e hne h
    exact serviceAdd_of_compile_error w f args
      (serviceAddCompile_error_of_entrypoint w f args e hne h)
  · intro vol hmem h
    obtain ⟨e, he⟩ := volumeLoop_error f.cmdAddVolume
      (if f.cmdAddVolume.length > 0 then [] else args.Volumes) vol hmem h
    exact serviceAdd_of_compile_error w f args
      (serviceAddCompile_error_of_volumes w f args e he)
  · intro gat hmem h
    obtain ⟨e, he⟩ := parseGateways_error f.cmdAddGateway
      (parseNetworks args.ContainerNetwork f.cmdAddNetwork) gat hmem h
    exact serviceAdd_of_compile_error w f args
      (serviceAddCompile_error_of_gateways w f args e he)
  · intro e h
    exact serviceAdd_of_compile_error w f args
      (serviceAddCompile_error_of_publish w f args e h)
  · intro pub hmem h
    obtain ⟨e, he⟩ := publishLoop_error f.addPublish [] pub hmem h
    exact serviceAdd_of_compile_error w f args
      (serviceAddCompile_error_of_publish w f args e he)
  · intro pub hmem e hc h
    obtain ⟨e', he⟩ := publishLoop_error_of_step f.addPublish [] pub hmem
      (fun v' => publishStep_error_bare v' pub e hc h)
    exact serviceAdd_of_compile_error w f args
      (serviceAddCompile_error_of_publish w f args e' he)
  · intro net hmem h
    exact serviceAdd_of_compile_error w f args
      (serviceAddCompile_error_of_whitelist w f args
        (fun ports => parseWhitelistedCidrs_error f.cmdAddNetworkAllow ports net hmem h))
  · intro e h
    exact serviceAdd_of_compile_error w f args ⟨e, h⟩

/-- Witness of C11: an unterminated quote in `--command`, the volume `/data:50:extra`,
the gateway `private`, the publish rules `a:b:c:d` and `70000`, and the whitelist entry
`1.2.3.4:80:81`, each next to well-formed arguments. -/
theorem serviceAdd_compile_failure_witness :
    serviceAdd { okWorld with shlexSplit := fun _ => .error "EOF found" }
      { defaultFlags with cmdAddCommand := "sh -c 'run" } defaultAdd = [] ∧
    serviceAdd okWorld { defaultFlags with cmdAddVolume := ["/log", "/data:50:extra"] }
      defaultAdd = [] ∧
    serviceAdd okWorld { defaultFlags with cmdAddGateway := ["private:public", "private"] }
      defaultAdd = [] ∧
    serviceAdd okWorld { defaultFlags with addPublish := ["80", "a:b:c:d"] } defaultAdd = [] ∧
    serviceAdd okWorld { defaultFlags with addPublish := ["80", "70000"] } defaultAdd = [] ∧
    serviceAdd okWorld { defaultFlags with addPublish := ["80"],
                                           cmdAddNetworkAllow := ["1.2.3.4:80:81"] }
      defaultAdd = [] :=
  ⟨(serviceAdd_compile_failure { okWorld with shlexSplit := fun _ => .error "EOF found" }
      { defaultFlags with cmdAddCommand := "sh -c 'run" } defaultAdd).1
      "EOF found" (by decide) rfl,
   (serviceAdd_compile_failure okWorld
      { defaultFlags with cmdAddVolume := ["/log", "/data:50:extra"] } defaultAdd).2.2.1
      "/data:50:extra" (by simp) (by decide),
   (serviceAdd_compile_failure okWorld
      { defaultFlags with cmdAddGateway := ["private:public", "private"] } defaultAdd).2.2.2.1
      "private" (by simp) (by decide),
   (serviceAdd_compile_failure okWorld
      { defaultFlags with addPublish := ["80", "a:b:c:d"] } defaultAdd).2.2.2.2.2.1
      "a:b:c:d" (by simp) (by decide),
   (serviceAdd_compile_failure okWorld
      { defaultFlags with addPublish := ["80", "70000"] } defaultAdd).2.2.2.2.2.2.1
      "70000" (by simp) _ (by decide) rfl,
   (serviceAdd_compile_failure okWorld
      { defaultFlags with addPublish := ["80"], cmdAddNetworkAllow := ["1.2.3.4:80:81"] }
      defaultAdd).2.2.2.2.2.2.2.1
      "1.2.3.4:80:81" (by simp) (by decide)⟩

/-! ## The claims about the start sequence and the reduced document -/

theorem serviceAddCompile_ids (w : World) (f : Flags) (args spec : Add)
    (h : serviceAddCompile w f args = .ok spec) :
    spec.Application = args.Application ∧ spec.Service = args.Service := by
  unfold serviceAddCompile at h
  simp only at h
  split at h
  · cases h
  split at h
  · cases h
  split at h
  · cases h
  split at h
  · cases h
  split at h
  · cases h
  split at h
  · cases h
  simp only [Except.ok.injEq] at h
  subst h
  exact ⟨rfl, rfl⟩

/-- C12: when the document compiles and is marshalled, the create call has no transport
error, the status is below 400 and the stream ends without error, `serviceAdd` calls the
create request, reads the stream and calls the start sequence once, with
`(args.Application, args.Service, addBatch)`; it makes no call of the start sequence on a
transport error, on a status of 400 or more, or on a stream error. -/
theorem serviceAdd_start (w : World) (f : Flags) (args : Add) :
    (∀ spec body, serviceAddCompile w f args = .ok spec → w.MarshalIndent spec = .ok body →
      w.streamErr = none → w.streamCode < 400 → w.displayErr = none →
      serviceAdd w f args =
        [.Stream "POST" ("/applications/" ++ args.Application ++ "/services/" ++ args.Service)
            body, .DisplayStream, .serviceStart args.Application args.Service f.addBatch] ∧
      startCalls (serviceAdd w f args) = 1) ∧
    (w.streamErr ≠ none → startCalls (serviceAdd w f args) = 0) ∧
    (w.streamCode ≥ 400 → startCalls (serviceAdd w f args) = 0) ∧
    (w.displayErr ≠ none → startCalls (serviceAdd w f args) = 0) := by
  have hno : w.streamErr ≠ none ∨ w.streamCode ≥ 400 ∨ w.displayErr ≠ none →
      startCalls (serviceAdd w f args) = 0 := by
    intro hcase
    unfold serviceAdd
    cases serviceAddCompile w f args with
    | error e => simp [startCalls]
    | ok spec =>
      simp only [serviceAddSubmit]
      cases w.MarshalIndent spec with
      | error e => simp [startCalls]
      | ok body =>
        cases he : w.streamErr with
        | some e => simp [startCalls]
        | none =>
          by_cases h409 : w.streamCode = 409 ∧ f.cmdAddRedeploy = true
          · simp [startCalls, h409, ensureMode]
          · by_cases h400 : w.streamCode ≥ 400
            · cases w.ReadAll <;> simp [startCalls, h409, h400]
            · cases hd : w.displayErr with
              | none =>
                rcases hcase with h | h | h
                · exact absurd he h
                · exact absurd h h400
                · exact absurd hd h
              | some msg =>
                cases w.DecodeError w.displayLine with
                | none => simp [startCalls, h409, h400]
                | some e =>
                  by_cases hc : e.Code = 409 ∧ f.cmdAddRedeploy = true
                  · have h1 : ¬ w.streamCode = 409 := fun h => h409 ⟨h, hc.2⟩
                    simp [startCalls, h1, h400, hc, ensureMode]
                  · simp [startCalls, h409, h400, hc]
  refine ⟨?_, fun h => hno (Or.inl h), fun h => hno (Or.inr (Or.inl h)),
    fun h => hno (Or.inr (Or.inr h))⟩
  intro spec body hc hm he hlt hd
  obtain ⟨ha, hs⟩ := serviceAddCompile_ids w f args spec hc
  have h1 : ¬ w.streamCode = 409 := by omega
  have h2 : ¬ w.streamCode ≥ 400 := by omega
  simp [serviceAdd, serviceAddSubmit, hc, hm, he, h1, h2, hd, startCalls, ha, hs]

/-- Witness of C12: a create call answered 200 with a clean stream, with `--batch`; a
transport error; a status 500; a stream error. -/
theorem serviceAdd_start_witness :
    serviceAdd okWorld { defaultFlags with addBatch := true } defaultAdd =
      [.Stream "POST" "/applications/app/services/redis" "{}", .DisplayStream,
        .serviceStart "app" "redis" true] ∧
    startCalls (serviceAdd { okWorld with streamErr := some "timeout" } defaultFlags
      defaultAdd) = 0 ∧
    startCalls (serviceAdd { okWorld with streamCode := 500 } defaultFlags defaultAdd) = 0 ∧
    startCalls (serviceAdd { okWorld with displayErr := some "failed" } defaultFlags
      defaultAdd) = 0 :=
  ⟨((serviceAdd_start okWorld { defaultFlags with addBatch := true } defaultAdd).1
      { defaultAdd with ContainerEnvironment := some [] } "{}" rfl rfl rfl (by decide) rfl).1,
   (serviceAdd_start { okWorld with streamErr := some "timeout" } defaultFlags defaultAdd).2.1
      (by simp),
   (serviceAdd_start { okWorld with streamCode := 500 } defaultFlags defaultAdd).2.2.1
      (by decide),
   (serviceAdd_start { okWorld with displayErr := some "failed" } defaultFlags defaultAdd).2.2.2
      (by simp)⟩

/-- C13: for every document `args`, `ensureMode` calls the redeploy path with the pair
`(args.Application, args.Service)` and a reduced document whose fifteen fields equal the
same fields of `args`; the call does not depend on the pool of `args`; `ensureMode`
leaves `args` as it was; and on a status 409 with redeploy fallback on, the call
`serviceAdd` makes after the create request is this one, on the compiled document. -/
theorem ensureMode_reduced (args : Add) :
    (∀ addBatch, ∃ body, ensureMode addBatch args =
        .doServiceRedeploy addBatch body args.Application args.Service ∧
      body.Service = args.Service ∧ body.Volumes = args.Volumes ∧
      body.Repository = args.Repository ∧ body.ContainerUser = args.ContainerUser ∧
      body.RestartPolicy = args.RestartPolicy ∧
      body.ContainerCommand = args.ContainerCommand ∧
      body.ContainerNetwork = args.ContainerNetwork ∧
      body.ContainerEntrypoint = args.ContainerEntrypoint ∧
      body.RepositoryTag = args.RepositoryTag ∧ body.Links = args.Links ∧
      body.Application = args.Application ∧ body.ContainerWorkdir = args.ContainerWorkdir ∧
      body.ContainerEnvironment = args.ContainerEnvironment ∧
      body.ContainerModel = args.ContainerModel ∧
      body.ContainerPorts = args.ContainerPorts) ∧
    (∀ addBatch pool,
      ensureMode addBatch { args with Pool := pool } = ensureMode addBatch args) ∧
    (∀ addBatch redeployBatch,
      (ensureModeRun addBatch ⟨args, redeployBatch⟩).1.args = args ∧
      (ensureModeRun addBatch ⟨args, redeployBatch⟩).2 = ensureMode addBatch args) ∧
    (∀ (w : World) (f : Flags) (spec : Add) (body : String),
      serviceAddCompile w f args = .ok spec → w.MarshalIndent spec = .ok body →
      w.streamErr = none → f.cmdAddRedeploy = true → w.streamCode = 409 →
      serviceAdd w f args =
        [.Stream "POST" ("/applications/" ++ spec.Application ++ "/services/" ++ spec.Service)
            body, ensureMode f.addBatch spec]) := by
  refine ⟨?_, ?_, ?_, ?_⟩
  · intro addBatch
    exact ⟨_, rfl, rfl, rfl, rfl, rfl, rfl, rfl, rfl, rfl, rfl, rfl, rfl, rfl, rfl, rfl, rfl⟩
  · intro addBatch pool
    rfl
  · intro addBatch redeployBatch
    exact ⟨rfl, rfl⟩
  · intro w f spec body hc hm he hr h409
    simp [serviceAdd, serviceAddSubmit, hc, hm, he, hr, h409]

/-- Witness of C13: `sail service add app/redis --redeploy --pool gold -p public:80` on a
create request answered 409. -/
theorem ensureMode_reduced_witness :
    serviceAdd { okWorld with streamCode := 409 }
      { defaultFlags with cmdAddRedeploy := true, addPublish := ["public:80"] }
      { defaultAdd with Pool := "gold" } =
    [.Stream "POST" "/applications/app/services/redis" "{}",
     .doServiceRedeploy false
       { Service := "redis", Volumes := [], Repository := "redis", ContainerUser := "",
         RestartPolicy := "no", ContainerCommand := [], ContainerNetwork := [],
         ContainerEntrypoint := [], RepositoryTag := "", Links := [], Application := "app",
         ContainerWorkdir := "", ContainerEnvironment := some [], ContainerModel := "x1",
         ContainerPorts := [("80/tcp", [⟨80, [], "public"⟩])] }
       "app" "redis"] :=
  (ensureMode_reduced { defaultAdd with Pool := "gold" }).2.2.2
    { okWorld with streamCode := 409 }
    { defaultFlags with cmdAddRedeploy := true, addPublish := ["public:80"] }
    { defaultAdd with Pool := "gold", ContainerEnvironment := some [],
                      ContainerPorts := [("80/tcp", [⟨80, [], "public"⟩])] }
    "{}" rfl rfl rfl rfl rfl

end Sail
